import Mathlib

set_option maxRecDepth 8000

namespace CryptoScanner

/-- A CoinGecko market snapshot as consumed by `get_top_gainers` in `app.py`.
Optional fields model JSON fields that may be absent (or null); rational
numbers model the numeric JSON values. -/
structure Coin where
  id : String
  name : String
  symbol : String
  current_price : Option ℚ
  price_change_percentage_24h_in_currency : Option ℚ
  total_volume : Option ℚ
deriving DecidableEq

/-- One step of the dict comprehension at app.py line 131
(insertion-ordered dict semantics: an existing key keeps its position but
receives the new value; a new key is appended at the end). -/
def dictInsert (m : List (String × Coin)) (c : Coin) : List (String × Coin) :=
  if m.any (fun p => p.1 = c.id) then
    m.map (fun p => if p.1 = c.id then (c.id, c) else p)
  else m ++ [(c.id, c)]

/-- The dict comprehension at app.py line 131: keys are coin ids, the
last seen instance of an id prevails. -/
def unique_coins_map (l : List Coin) : List (String × Coin) :=
  l.foldl dictInsert []

/-- app.py line 132: the deduplicated coin list, in dict value order. -/
def unique_coins_data (l : List Coin) : List Coin :=
  (unique_coins_map l).map Prod.snd

/-- app.py lines 135-138: drop coins whose 24h percentage change is absent. -/
def valid_coins (l : List Coin) : List Coin :=
  l.filter (fun c => c.price_change_percentage_24h_in_currency.isSome)

/-- The volume test of app.py line 143: total volume present and above 1,000,000. -/
def volumeOK (c : Coin) : Bool :=
  match c.total_volume with
  | some v => decide (1000000 < v)
  | none => false

/-- app.py lines 141-144. -/
def filtered_by_volume (l : List Coin) : List Coin :=
  l.filter volumeOK

/-- The sort key of app.py line 149.  The filter at lines 135-138 guarantees
the field is present wherever this key is used, so the default 0 is inert. -/
def chg24 (c : Coin) : ℚ :=
  c.price_change_percentage_24h_in_currency.getD 0

/-- The descending comparison realised by `sorted(..., reverse=True)` at
app.py lines 147-151: `a` may come before `b` when its key is at least `b`'s. -/
def gainerOrder (a b : Coin) : Prop := chg24 b ≤ chg24 a

instance : DecidableRel gainerOrder :=
  fun a b => (inferInstance : Decidable (chg24 b ≤ chg24 a))

instance : IsTotal Coin gainerOrder := ⟨fun a b => le_total (chg24 b) (chg24 a)⟩

instance : IsTrans Coin gainerOrder := ⟨fun _ _ _ h1 h2 => le_trans h2 h1⟩

/-- app.py lines 147-151: Python `sorted` is a stable sort; a stable
insertion sort with the reflexive descending comparison reproduces its
output order exactly (ties keep their original relative order). -/
def sorted_coins (l : List Coin) : List Coin :=
  List.insertionSort gainerOrder (filtered_by_volume (valid_coins (unique_coins_data l)))

/-- The dedupe → filter → filter → sort → truncate pipeline of app.py
lines 130-157 (the spec's `rank`). -/
def rankGainers (l : List Coin) : List Coin :=
  (sorted_coins l).take 10

/-- app.py lines 126-157: the post-fetch part of `get_top_gainers`, as a
function of the accumulated page data.  `none` models the Python `return None`
taken both when the accumulated list is empty (line 128) and when no coin
survives the filters (line 155). -/
def getTopGainersProcess (l : List Coin) : Option (List Coin) :=
  if l = [] then none
  else if sorted_coins l = [] then none
  else some ((sorted_coins l).take 10)

/-- The outcome of one page request in the loop at app.py lines 87-124:
a parsed JSON body, an HTTP error status raised by `raise_for_status`, a
connection-level failure (`RequestException`), or any other exception
(for instance a JSON decoding error). -/
inductive PageResponse where
  | ok (coins : List Coin)
  | httpError (status : Nat)
  | connectionFailure
  | unexpectedFailure
deriving DecidableEq

/-- The kind of message shown via `st.error` inside the fetch loop
(app.py lines 104, 107, 112, 116, 121), keeping the data interpolated
into the message text. -/
inductive FetchMessage where
  | unauthorized
  | rateLimited (page : Nat)
  | httpOther (status : Nat) (page : Nat)
  | connectionFailed (page : Nat)
  | unexpectedFailed (page : Nat)
deriving DecidableEq

/-- The page loop of app.py lines 87-124, over the sequence of responses the
requests would produce, threading the page counter and the accumulator
`all_coins_data`.  Every failure branch either returns `none` immediately
(`return None`) or stops the loop keeping the accumulated data (`break`),
so at most one message is ever emitted. -/
def fetchLoop : List PageResponse → Nat → List Coin → List FetchMessage × Option (List Coin)
  | [], _, acc => ([], some acc)
  | PageResponse.ok page :: rest, pageNum, acc =>
      fetchLoop rest (pageNum + 1) (if page.isEmpty then acc else acc ++ page)
  | PageResponse.httpError status :: _, pageNum, acc =>
      if status = 401 then ([FetchMessage.unauthorized], none)
      else if status = 429 then
        if acc.isEmpty then ([FetchMessage.rateLimited pageNum], none)
        else ([FetchMessage.rateLimited pageNum], some acc)
      else
        if acc.isEmpty then ([FetchMessage.httpOther status pageNum], none)
        else ([FetchMessage.httpOther status pageNum], some acc)
  | PageResponse.connectionFailure :: _, pageNum, acc =>
      if acc.isEmpty then ([FetchMessage.connectionFailed pageNum], none)
      else ([FetchMessage.connectionFailed pageNum], some acc)
  | PageResponse.unexpectedFailure :: _, pageNum, acc =>
      if acc.isEmpty then ([FetchMessage.unexpectedFailed pageNum], none)
      else ([FetchMessage.unexpectedFailed pageNum], some acc)

/-- The whole of `get_top_gainers` (app.py lines 77-157): the missing-key
guard, the two-page fetch loop starting at page 1 with an empty accumulator,
and the post-processing of the accumulated list. -/
def get_top_gainers (key : String) (pages : List PageResponse) : Option (List Coin) :=
  if key = "" then none
  else
    match fetchLoop pages 1 [] with
    | (_, none) => none
    | (_, some allCoins) => getTopGainersProcess allCoins

/-- Decimal digits of a natural number, little-endian, via an explicit fuel
argument so that the definition is structurally recursive (hence evaluable by
the kernel).  `natDigits 0 = []`, matching the need to special-case zero when
rendering. -/
def natDigitsAux : Nat → Nat → List Nat
  | 0, _ => []
  | fuel + 1, n => if n = 0 then [] else n % 10 :: natDigitsAux fuel (n / 10)

def natDigits (n : Nat) : List Nat := natDigitsAux n n

/-- Render one decimal digit as a character. -/
def digitCh : Nat → Char
  | 0 => '0'
  | 1 => '1'
  | 2 => '2'
  | 3 => '3'
  | 4 => '4'
  | 5 => '5'
  | 6 => '6'
  | 7 => '7'
  | 8 => '8'
  | 9 => '9'
  | _ + 10 => '*'

/-- Insert a comma after every three characters of a little-endian digit
list, as the `,` flag of the Python format specifications
`f"{...:,.2f}"` / `f"{...:,.8f}"` does (app.py lines 223-224). -/
def commaGroup : List Char → List Char
  | [] => []
  | [a] => [a]
  | [a, b] => [a, b]
  | [a, b, c] => [a, b, c]
  | a :: b :: c :: d :: rest => a :: b :: c :: ',' :: commaGroup (d :: rest)

/-- Left-pad a character list with zeros up to length `d`. -/
def padZeros (d : Nat) (l : List Char) : List Char :=
  List.replicate (d - l.length) '0' ++ l

/-- The fractional digits of a fixed-point rendering: exactly `d` characters. -/
def fracChars (m : Nat) (d : Nat) : List Char :=
  padZeros d ((natDigits m).reverse.map digitCh)

/-- The integer part of a fixed-point rendering, grouped in threes by commas. -/
def intChars (n : Nat) : List Char :=
  if n = 0 then ['0'] else (commaGroup ((natDigits n).map digitCh)).reverse

/-- Round the fraction `n / den` to the nearest natural number, halves to the
even neighbour, as Python's fixed-point float formatting does on the decimal
value.  (The source formats IEEE doubles; this model formats the exact
rational the double denotes, which agrees on every value the claims mention.) -/
def roundScaledHalfEven (n den : Nat) : Nat :=
  let q := n / den
  let r := n % den
  if 2 * r < den then q
  else if den < 2 * r then q + 1
  else if q % 2 = 0 then q else q + 1

/-- The Python format expression `f"{x:,.df}"`: sign, comma-grouped integer
part, a point, then exactly `d` fractional digits of the rounded magnitude
`|x| * 10 ^ d`, computed on the numerator and denominator of `x`. -/
def formatFixed (q : ℚ) (d : Nat) : String :=
  let m := roundScaledHalfEven (q.num.natAbs * 10 ^ d) q.den
  String.mk ((if q.num < 0 then ['-'] else []) ++
    intChars (m / 10 ^ d) ++ ['.'] ++ fracChars (m % 10 ^ d) d)

/-- The number of characters after the last point of a rendered string. -/
def decimalsAfterPoint (s : String) : Nat :=
  (s.data.reverse.takeWhile (fun c => c ≠ '.')).length

/-- Python's `str.upper()` (app.py line 183), character by character. -/
def upperStr (s : String) : String :=
  String.mk (s.data.map Char.toUpper)

/-- The two fields `check_binance_data` reads from a successful 24h-ticker
response body (app.py lines 218-219); `none` models an absent key, for which
`data.get(..., 0)` substitutes 0. -/
structure TickerData where
  lastPrice : Option ℚ
  quoteVolume : Option ℚ
deriving DecidableEq

/-- The outcome of the ticker request at app.py lines 213-216: a parsed body,
an HTTP error (with whether the response text mentions an invalid symbol), a
connection-level failure, or any other processing error. -/
inductive TickerResult where
  | ok (data : TickerData)
  | httpError (status : Nat) (bodySaysInvalidSymbol : Bool)
  | connectionFailure
  | unexpectedFailure
deriving DecidableEq

/-- The dictionary `check_binance_data` returns (app.py lines 185-239). -/
structure CheckResult where
  status_binance : String
  price_binance : String
  volume_binance : String
deriving DecidableEq

/-- `check_binance_data` (app.py lines 178-239).  The first component of the
result records whether the ticker endpoint was queried at all: the three
guard branches return without issuing any request.  The `tradable_usdt_pairs`
argument is `none` when the caller holds no set at all (the
`is None or not isinstance(..., set)` test); the Python set is modelled as a
`Finset`.  String results are the exact source strings. -/
def check_binance_data (coin_symbol : String) (tradable_usdt_pairs : Option (Finset String))
    (ticker : TickerResult) : Bool × CheckResult :=
  let binance_symbol_usdt := upperStr coin_symbol ++ "USDT"
  match tradable_usdt_pairs with
  | none => (false, ⟨"❌ Verif. Indisponível", "N/A", "N/A"⟩)
  | some ps =>
    if ps = ∅ then (false, ⟨"⚠️ Binance Indisponível", "N/A", "N/A"⟩)
    else if binance_symbol_usdt ∉ ps then (false, ⟨"❌ Não na Binance (USDT)", "N/A", "N/A"⟩)
    else
      (true,
        match ticker with
        | TickerResult.ok data =>
            let price := data.lastPrice.getD 0
            let volume_usdt := data.quoteVolume.getD 0
            ⟨"✅ Na Binance",
              if price < mkRat 1 100 then ("$" ++ formatFixed price 8) else ("$" ++ formatFixed price 2),
              "$" ++ formatFixed volume_usdt 2⟩
        | TickerResult.httpError status bodySaysInvalidSymbol =>
            ⟨if status = 400 ∧ bodySaysInvalidSymbol then
                "❌ " ++ upperStr coin_symbol ++ " Inválido (Ticker)"
              else if status = 404 then
                "❌ " ++ upperStr coin_symbol ++ " Não Listado (Ticker)"
              else ("⚠️ Erro " ++ toString status ++ " Binance"),
              "N/A", "N/A"⟩
        | TickerResult.connectionFailure => ⟨"⚠️ Erro Conexão Binance", "N/A", "N/A"⟩
        | TickerResult.unexpectedFailure => ⟨"⚠️ Erro Dados Binance", "N/A", "N/A"⟩)

/-- One entry of a Brave result collection, with the fields
`get_brave_search_news` reads (app.py lines 277-281); `none` models an absent
key. -/
structure BraveItem where
  title : Option String
  url : Option String
  description : Option String
  snippet : Option String
  source : Option String
  meta_url_hostname : Option String
deriving DecidableEq

/-- The two result collections of a parsed Brave Web Search response body:
`data.get('news', {}).get('results', [])` and
`data.get('web', {}).get('results', [])` (app.py lines 273-274 and 291-292). -/
structure BraveResponse where
  news_results : List BraveItem
  web_results : List BraveItem
deriving DecidableEq

/-- The outcome of the Brave request at app.py lines 265-267. -/
inductive BraveOutcome where
  | ok (data : BraveResponse)
  | httpError (status : Nat)
  | connectionFailure
  | unexpectedFailure
deriving DecidableEq

/-- One processed item appended at app.py lines 282-287 / 300-305. -/
structure NewsItem where
  title : String
  url : String
  snippet : String
  source : String
deriving DecidableEq

/-- The per-item extraction of app.py lines 278-281 (identical at 296-299):
title, URL, description falling back to the snippet key, source falling back
to the hostname under `meta_url`. -/
def toNewsItem (item : BraveItem) : NewsItem :=
  { title := item.title.getD ("N/A")
    url := item.url.getD ("#")
    snippet := item.description.getD (item.snippet.getD ("N/A"))
    source := item.source.getD (item.meta_url_hostname.getD ("N/A")) }

/-- The dictionary shapes `get_brave_search_news` can return: exactly one of
the keys `error`, `news`, `message` (app.py lines 245, 247, 309, 311, 321,
324, 327). -/
inductive NewsResult where
  | error (msg : String)
  | news (items : List NewsItem)
  | message (msg : String)
deriving DecidableEq

/-- Whether a `NewsResult` is the `error` shape. -/
def isErrorResult : NewsResult → Bool
  | NewsResult.error _ => true
  | _ => false

/-- The items carried by a `news`-shaped result, else the empty list. -/
def newsItems : NewsResult → List NewsItem
  | NewsResult.news items => items
  | _ => []

/-- `get_brave_search_news` (app.py lines 242-327) as a function of the coin
name, the key, the requested count and the outcome of the single HTTP
request.  Note the `count` parameter is only sent to the API (line 256); the
processing loops never truncate the response collections. -/
def get_brave_search_news (coin_name b_api_key : String) (count : Nat)
    (outcome : BraveOutcome) : NewsResult :=
  if b_api_key = "" then NewsResult.error ("Brave Search API Key não fornecida.")
  else if coin_name = "" then NewsResult.error ("Nome da moeda não fornecido.")
  else
    match outcome with
    | BraveOutcome.ok data =>
        let fromNews := data.news_results.map toNewsItem
        let processed_items :=
          if fromNews.isEmpty then data.web_results.map toNewsItem else fromNews
        if processed_items.isEmpty then
          NewsResult.message ("Nenhuma notícia ou resultado web relevante encontrado para "
            ++ coin_name ++ " com os filtros atuais.")
        else NewsResult.news processed_items
    | BraveOutcome.httpError status =>
        NewsResult.error ("Erro HTTP " ++ toString status
          ++ " com Brave Web Search API para " ++ coin_name ++ "."
          ++ (if status = 401 then (" Verifique sua Brave API Key.")
              else if status = 429 then (" Limite de requisições da Brave API atingido.")
              else if status = 403 then
                " Acesso não autorizado à Brave API. Verifique sua subscrição ou endpoint."
              else ("")))
    | BraveOutcome.connectionFailure =>
        NewsResult.error ("Erro de conexão com Brave Web Search API para " ++ coin_name ++ ".")
    | BraveOutcome.unexpectedFailure =>
        NewsResult.error ("Erro inesperado ao buscar notícias para " ++ coin_name ++ ".")

/-- A Brave item with every key absent, and closed response bodies used to
evaluate the theorems on concrete inputs. -/
def emptyBraveItem : BraveItem := ⟨none, none, none, none, none, none⟩

def fourNewsResponse : BraveResponse :=
  ⟨[emptyBraveItem, emptyBraveItem, emptyBraveItem, emptyBraveItem], []⟩

def webOnlyResponse : BraveResponse :=
  ⟨[], [⟨some ("T"), some ("u"), some ("d"), none, none, some ("h")⟩]⟩

/-- A qualifying snapshot that declined (change -1, volume 2,000,000). -/
def decliner (i : String) : Coin := ⟨i, i, i, some 1, some (-1), some 2000000⟩

/-- Eleven distinct qualifying decliners, all tied on the sort key. -/
def tiedDecliners : List Coin :=
  [decliner ("a"), decliner ("b"), decliner ("c"), decliner ("d"), decliner ("e"),
   decliner ("f"), decliner ("g"), decliner ("h"), decliner ("i"), decliner ("j"),
   decliner ("k")]

theorem sorted_coins_perm (l : List Coin) :
    List.Perm (sorted_coins l) (filtered_by_volume (valid_coins (unique_coins_data l))) :=
  List.perm_insertionSort gainerOrder _

theorem mem_of_mem_rankGainers {c : Coin} {l : List Coin} (h : c ∈ rankGainers l) :
    c ∈ filtered_by_volume (valid_coins (unique_coins_data l)) :=
  (sorted_coins_perm l).subset ((List.take_sublist 10 (sorted_coins l)).subset h)

theorem volumeOK_iff {c : Coin} :
    volumeOK c = true ↔ ∃ v, c.total_volume = some v ∧ 1000000 < v := by
  unfold volumeOK
  cases h : c.total_volume with
  | none => simp
  | some v => simp

/-- C1: for every input list of snapshots, the ranking pipeline of
`get_top_gainers` yields at most 10 coins, sorted by 24h percentage change
in descending order, each with a present percentage change and a total
volume strictly above 1,000,000. -/
theorem rank_output_shape (l : List Coin) :
    (rankGainers l).length ≤ 10 ∧ List.Sorted gainerOrder (rankGainers l) ∧
      ∀ c ∈ rankGainers l, c.price_change_percentage_24h_in_currency.isSome = true ∧
        ∃ v, c.total_volume = some v ∧ 1000000 < v := by
  refine ⟨List.length_take_le 10 _, ?_, ?_⟩
  · exact List.Pairwise.sublist (List.take_sublist 10 (sorted_coins l))
      (List.sorted_insertionSort gainerOrder _)
  · intro c hc
    have hmem := mem_of_mem_rankGainers hc
    rw [filtered_by_volume, List.mem_filter] at hmem
    obtain ⟨hv, hvol⟩ := hmem
    rw [valid_coins, List.mem_filter] at hv
    exact ⟨by simpa using hv.2, volumeOK_iff.mp hvol⟩

/-- Scenario 1 of the spec, evaluated through `rank_output_shape`: of the
snapshots a (change 5.0, volume 2,000,000) and b (change 10.0, volume
500,000) only a survives. -/
theorem rank_output_shape_witness :
    rankGainers
        [⟨"a", "A", "A", some 1, some 5, some 2000000⟩,
         ⟨"b", "B", "B", some 1, some 10, some 500000⟩] =
      [⟨"a", "A", "A", some 1, some 5, some 2000000⟩] ∧
    (rankGainers
        [⟨"a", "A", "A", some 1, some 5, some 2000000⟩,
         ⟨"b", "B", "B", some 1, some 10, some 500000⟩]).length ≤ 10 :=
  ⟨by decide,
   (rank_output_shape
      [⟨"a", "A", "A", some 1, some 5, some 2000000⟩,
       ⟨"b", "B", "B", some 1, some 10, some 500000⟩]).1⟩

theorem dictInsert_fst (m : List (String × Coin)) (c : Coin) :
    (dictInsert m c).map Prod.fst =
      if m.any (fun p => p.1 = c.id) then m.map Prod.fst
      else m.map Prod.fst ++ [c.id] := by
  unfold dictInsert
  split
  · rw [List.map_map]
    refine List.map_congr_left (fun p _ => ?_)
    by_cases hp : p.1 = c.id
    · simp [hp]
    · simp [hp]
  · simp

theorem any_key_iff (m : List (String × Coin)) (k : String) :
    m.any (fun p => p.1 = k) = true ↔ k ∈ m.map Prod.fst := by
  simp only [List.any_eq_true, List.mem_map, decide_eq_true_eq]

theorem dictInsert_snd_id (m : List (String × Coin)) (c : Coin)
    (hA : ∀ p ∈ m, p.2.id = p.1) : ∀ p ∈ dictInsert m c, p.2.id = p.1 := by
  intro p hp
  unfold dictInsert at hp
  split at hp
  · obtain ⟨q, hq, rfl⟩ := List.mem_map.mp hp
    by_cases h : q.1 = c.id
    · simp [h]
    · simp only [if_neg h]
      exact hA q hq
  · rcases List.mem_append.mp hp with h | h
    · exact hA p h
    · simp only [List.mem_singleton] at h
      subst h
      rfl

theorem dictInsert_fst_nodup (m : List (String × Coin)) (c : Coin)
    (hN : (m.map Prod.fst).Nodup) : ((dictInsert m c).map Prod.fst).Nodup := by
  rw [dictInsert_fst]
  split
  · exact hN
  · next h =>
    have hnot : c.id ∉ m.map Prod.fst := by
      rw [← any_key_iff]
      simp only [h]
      exact Bool.false_ne_true
    simp [List.nodup_append, hN, hnot]

theorem filter_map_snd_eq_nil (k : String) (m : List (String × Coin))
    (hA : ∀ p ∈ m, p.2.id = p.1) (hk : k ∉ m.map Prod.fst) :
    (m.map Prod.snd).filter (fun x => x.id = k) = [] := by
  rw [List.filter_eq_nil_iff]
  intro a ha
  obtain ⟨q, hq, rfl⟩ := List.mem_map.mp ha
  rw [hA q hq]
  simp only [decide_eq_true_eq]
  intro hqk
  exact hk (List.mem_map.mpr ⟨q, hq, hqk⟩)

theorem overwrite_map_snd_filter_hit (c : Coin) (m : List (String × Coin))
    (hA : ∀ p ∈ m, p.2.id = p.1) (hN : (m.map Prod.fst).Nodup)
    (hin : c.id ∈ m.map Prod.fst) :
    ((m.map (fun p => if p.1 = c.id then (c.id, c) else p)).map Prod.snd).filter
      (fun x => x.id = c.id) = [c] := by
  induction m with
  | nil => simp at hin
  | cons p t ih =>
    rw [List.map_cons, List.nodup_cons] at hN
    by_cases hp : p.1 = c.id
    · have hnotin : c.id ∉ t.map Prod.fst := hp ▸ hN.1
      have htmap : t.map (fun q => if q.1 = c.id then (c.id, c) else q) = t := by
        refine (List.map_congr_left (fun q hq => ?_)).trans (List.map_id t)
        have : q.1 ≠ c.id := fun h => hnotin (List.mem_map.mpr ⟨q, hq, h⟩)
        simp [this]
      rw [List.map_cons, if_pos hp, htmap, List.map_cons, List.filter_cons]
      simp only [decide_eq_true_eq]
      rw [if_pos trivial]
      rw [filter_map_snd_eq_nil c.id t (fun q hq => hA q (List.mem_cons_of_mem p hq)) hnotin]
    · have hin2 : c.id ∈ t.map Prod.fst := by
        rw [List.map_cons] at hin
        rcases List.mem_cons.mp hin with h | h
        · exact absurd h.symm hp
        · exact h
      have hpid : p.2.id = p.1 := hA p (List.mem_cons_self p t)
      rw [List.map_cons, if_neg hp, List.map_cons, List.filter_cons]
      simp only [hpid, decide_eq_true_eq]
      rw [if_neg hp]
      exact ih (fun q hq => hA q (List.mem_cons_of_mem p hq)) hN.2 hin2

theorem overwrite_map_snd_filter_miss (c : Coin) (k : String) (hk : k ≠ c.id)
    (m : List (String × Coin)) (hA : ∀ p ∈ m, p.2.id = p.1) :
    ((m.map (fun p => if p.1 = c.id then (c.id, c) else p)).map Prod.snd).filter
      (fun x => x.id = k) = (m.map Prod.snd).filter (fun x => x.id = k) := by
  induction m with
  | nil => rfl
  | cons p t ih =>
    have hA2 : ∀ q ∈ t, q.2.id = q.1 := fun q hq => hA q (List.mem_cons_of_mem p hq)
    have hpid : p.2.id = p.1 := hA p (List.mem_cons_self p t)
    by_cases hp : p.1 = c.id
    · rw [List.map_cons, if_pos hp, List.map_cons, List.filter_cons, List.map_cons,
        List.filter_cons]
      simp only [hpid, hp, decide_eq_true_eq]
      rw [if_neg (fun h => hk h.symm), if_neg (fun h => hk h.symm)]
      exact ih hA2
    · rw [List.map_cons, if_neg hp, List.map_cons, List.filter_cons, List.map_cons,
        List.filter_cons, ih hA2]

theorem dictInsert_map_snd_filter_hit (m : List (String × Coin)) (c : Coin)
    (hA : ∀ p ∈ m, p.2.id = p.1) (hN : (m.map Prod.fst).Nodup) :
    ((dictInsert m c).map Prod.snd).filter (fun x => x.id = c.id) = [c] := by
  unfold dictInsert
  split
  · next hAny => exact overwrite_map_snd_filter_hit c m hA hN ((any_key_iff m c.id).mp hAny)
  · next hAny =>
    have hnot : c.id ∉ m.map Prod.fst := by
      rw [← any_key_iff]
      simpa using hAny
    rw [List.map_append, List.filter_append,
      filter_map_snd_eq_nil c.id m hA hnot]
    simp

theorem dictInsert_map_snd_filter_miss (m : List (String × Coin)) (c : Coin) (k : String)
    (hA : ∀ p ∈ m, p.2.id = p.1) (hk : k ≠ c.id) :
    ((dictInsert m c).map Prod.snd).filter (fun x => x.id = k) =
      (m.map Prod.snd).filter (fun x => x.id = k) := by
  unfold dictInsert
  split
  · exact overwrite_map_snd_filter_miss c k hk m hA
  · rw [List.map_append, List.filter_append]
    have : ([(c.id, c)].map Prod.snd).filter (fun x => x.id = k) = [] := by
      simp [Ne.symm hk]
    rw [this, List.append_nil]

theorem foldl_dictInsert_filter (k : String) :
    ∀ (l : List Coin) (m : List (String × Coin)),
      (∀ p ∈ m, p.2.id = p.1) → (m.map Prod.fst).Nodup →
      ((l.foldl dictInsert m).map Prod.snd).filter (fun x => x.id = k) =
        (((l.filter (fun x => x.id = k)).getLast?).map (fun c => [c])).getD
          ((m.map Prod.snd).filter (fun x => x.id = k))
  | [], m, _, _ => by simp
  | c :: rest, m, hA, hN => by
    rw [List.foldl_cons,
      foldl_dictInsert_filter k rest (dictInsert m c) (dictInsert_snd_id m c hA)
        (dictInsert_fst_nodup m c hN),
      List.filter_cons]
    by_cases hck : c.id = k
    · rw [if_pos (by simp [hck])]
      cases hlast : (rest.filter (fun x => x.id = k)).getLast? with
      | some c2 =>
        have hne : rest.filter (fun x => x.id = k) ≠ [] := by
          intro h
          rw [h] at hlast
          simp at hlast
        obtain ⟨x, xs, hxx⟩ := List.exists_cons_of_ne_nil hne
        rw [hxx, List.getLast?_cons_cons, ← hxx, hlast]
        rfl
      | none =>
        rw [List.getLast?_eq_none_iff.mp hlast]
        subst hck
        rw [dictInsert_map_snd_filter_hit m c hA hN]
        rfl
    · rw [if_neg (by simp [hck])]
      cases hlast : (rest.filter (fun x => x.id = k)).getLast? with
      | some c2 => rfl
      | none =>
        rw [dictInsert_map_snd_filter_miss m c k hA (fun h => hck h.symm)]

theorem unique_coins_filter (l : List Coin) (k : String) :
    (unique_coins_data l).filter (fun x => x.id = k) =
      ((l.filter (fun x => x.id = k)).getLast?).toList := by
  rw [unique_coins_data, unique_coins_map,
    foldl_dictInsert_filter k l [] (by simp) (by simp)]
  cases (l.filter (fun x => x.id = k)).getLast? with
  | none => simp
  | some c => simp

theorem unique_coins_map_inv (l : List Coin) :
    (∀ p ∈ unique_coins_map l, p.2.id = p.1) ∧
      ((unique_coins_map l).map Prod.fst).Nodup := by
  rw [unique_coins_map]
  suffices h : ∀ (l2 : List Coin) (m : List (String × Coin)),
      (∀ p ∈ m, p.2.id = p.1) → (m.map Prod.fst).Nodup →
      (∀ p ∈ l2.foldl dictInsert m, p.2.id = p.1) ∧
        ((l2.foldl dictInsert m).map Prod.fst).Nodup from h l [] (by simp) (by simp)
  intro l2
  induction l2 with
  | nil => exact fun m hA hN => ⟨hA, hN⟩
  | cons c rest ih =>
    intro m hA hN
    rw [List.foldl_cons]
    exact ih _ (dictInsert_snd_id m c hA) (dictInsert_fst_nodup m c hN)

theorem unique_coins_data_nodup (l : List Coin) : (unique_coins_data l).Nodup := by
  obtain ⟨hA, hN⟩ := unique_coins_map_inv l
  have hmap : (unique_coins_data l).map (fun c => c.id) = (unique_coins_map l).map Prod.fst := by
    rw [unique_coins_data, List.map_map]
    exact List.map_congr_left (fun p hp => hA p hp)
  exact List.Nodup.of_map (fun c => c.id) (hmap ▸ hN)

theorem mem_unique_of_mem_rankGainers {c : Coin} {l : List Coin}
    (h : c ∈ rankGainers l) : c ∈ unique_coins_data l := by
  have h1 := mem_of_mem_rankGainers h
  rw [filtered_by_volume, List.mem_filter] at h1
  have h2 := h1.1
  rw [valid_coins, List.mem_filter] at h2
  exact h2.1

/-- C3: when an identifier occurs at least twice in the input, the
deduplication of `get_top_gainers` keeps exactly one record for it — the one
occurring last in input order — and only that record can reach the ranked
output. -/
theorem dedup_last_wins (l : List Coin) (k : String)
    (h2 : 2 ≤ (l.filter (fun c => c.id = k)).length) :
    ((unique_coins_data l).filter (fun c => c.id = k)).length = 1 ∧
      (unique_coins_data l).filter (fun c => c.id = k) =
        ((l.filter (fun c => c.id = k)).getLast?).toList ∧
      ∀ c ∈ rankGainers l, c.id = k →
        (l.filter (fun x => x.id = k)).getLast? = some c := by
  have hfe := unique_coins_filter l k
  have hne : l.filter (fun c => c.id = k) ≠ [] := by
    intro h
    rw [h] at h2
    simp at h2
  cases hlast : (l.filter (fun c => c.id = k)).getLast? with
  | none => exact absurd (List.getLast?_eq_none_iff.mp hlast) hne
  | some c0 =>
    refine ⟨?_, by rw [hfe, hlast], ?_⟩
    · rw [hfe, hlast]
      rfl
    · intro c hc hck
      have hcf : c ∈ (unique_coins_data l).filter (fun x => x.id = k) := by
        rw [List.mem_filter]
        exact ⟨mem_unique_of_mem_rankGainers hc, by simp [hck]⟩
      rw [hfe, hlast] at hcf
      simp only [Option.toList_some, List.mem_singleton] at hcf
      rw [hcf]

/-- Scenario 2 of the spec through `dedup_last_wins`: two snapshots share id
x with changes 3.0 then 7.0; dedup keeps one record and the ranked output
carries change 7.0. -/
theorem dedup_last_wins_witness :
    2 ≤ (([⟨"x", "X", "X", some 1, some 3, some 2000000⟩,
           ⟨"x", "X", "X", some 1, some 7, some 2000000⟩] : List Coin).filter
          (fun c => c.id = "x")).length ∧
    ((unique_coins_data [⟨"x", "X", "X", some 1, some 3, some 2000000⟩,
        ⟨"x", "X", "X", some 1, some 7, some 2000000⟩]).filter
          (fun c => c.id = "x")).length = 1 ∧
    rankGainers [⟨"x", "X", "X", some 1, some 3, some 2000000⟩,
        ⟨"x", "X", "X", some 1, some 7, some 2000000⟩] =
      [⟨"x", "X", "X", some 1, some 7, some 2000000⟩] :=
  ⟨by decide,
   (dedup_last_wins
      [⟨"x", "X", "X", some 1, some 3, some 2000000⟩,
       ⟨"x", "X", "X", some 1, some 7, some 2000000⟩] "x" (by decide)).1,
   by decide⟩

/-- C2 (counterexample): a non-empty fetched list in which no snapshot
qualifies (volume 500,000 ≤ 1,000,000) makes `get_top_gainers` return the
very same failure marker `None` (line 155) that the no-data branch (line
128) returns, so the caller cannot distinguish the two cases by the returned
value. -/
theorem process_none_counterexample :
    ([⟨"a", "A", "A", some 1, some 5, some 500000⟩] : List Coin) ≠ [] ∧
    rankGainers [⟨"a", "A", "A", some 1, some 5, some 500000⟩] = [] ∧
    getTopGainersProcess [⟨"a", "A", "A", some 1, some 5, some 500000⟩] = none ∧
    getTopGainersProcess [] = none := by
  refine ⟨by decide, by decide, by decide, by decide⟩

/-- C2 (amended): the dedupe-filter-sort-truncate core is a total pure
function returning the empty sequence when nothing qualifies, but
`get_top_gainers` then returns the failure marker `None` — the same value
as the no-data failure — so only the displayed message, not the returned
value, distinguishes the two outcomes. -/
theorem process_empty_is_failure_marker (l : List Coin) (hl : l ≠ [])
    (hr : rankGainers l = []) :
    getTopGainersProcess l = none ∧ getTopGainersProcess [] = none := by
  have hs : sorted_coins l = [] := by
    rcases List.take_eq_nil_iff.mp hr with h | h
    · exact absurd h (by decide)
    · exact h
  rw [getTopGainersProcess, if_neg hl, if_pos hs]
  exact ⟨rfl, rfl⟩

/-- `process_empty_is_failure_marker` at the concrete non-qualifying input. -/
theorem process_empty_is_failure_marker_witness :
    getTopGainersProcess [⟨"b", "B", "B", some 1, some 4, some 900000⟩] = none ∧
    getTopGainersProcess [] = none :=
  process_empty_is_failure_marker [⟨"b", "B", "B", some 1, some 4, some 900000⟩]
    (by decide) (by decide)

/-- C4: when a page request raises HTTP 401 the fetch aborts with the
unauthorized message and no data at all, whatever was already accumulated;
when it raises HTTP 429, another HTTP error, a connection failure or an
unexpected failure, the snapshots already collected are returned whenever
that partial list is non-empty. -/
theorem fetch_failure_policy (rest : List PageResponse) (pageNum : Nat)
    (acc : List Coin) (status : Nat) :
    fetchLoop (PageResponse.httpError 401 :: rest) pageNum acc =
        ([FetchMessage.unauthorized], none) ∧
    (acc ≠ [] →
      fetchLoop (PageResponse.httpError 429 :: rest) pageNum acc =
        ([FetchMessage.rateLimited pageNum], some acc)) ∧
    (acc ≠ [] → status ≠ 401 → status ≠ 429 →
      fetchLoop (PageResponse.httpError status :: rest) pageNum acc =
        ([FetchMessage.httpOther status pageNum], some acc)) ∧
    (acc ≠ [] →
      fetchLoop (PageResponse.connectionFailure :: rest) pageNum acc =
        ([FetchMessage.connectionFailed pageNum], some acc)) ∧
    (acc ≠ [] →
      fetchLoop (PageResponse.unexpectedFailure :: rest) pageNum acc =
        ([FetchMessage.unexpectedFailed pageNum], some acc)) := by
  have hEmpty : acc ≠ [] → acc.isEmpty = false := by
    intro h
    cases acc with
    | nil => exact absurd rfl h
    | cons a t => rfl
  refine ⟨rfl, ?_, ?_, ?_, ?_⟩
  · intro h
    simp [fetchLoop, hEmpty h]
  · intro h h401 h429
    simp [fetchLoop, h401, h429, hEmpty h]
  · intro h
    simp [fetchLoop, hEmpty h]
  · intro h
    simp [fetchLoop, hEmpty h]

/-- Scenario 4 of the spec through `fetch_failure_policy`: a 401 on the
second page discards the snapshot collected on the first, while a 429 or a
connection failure there keeps it. -/
theorem fetch_failure_policy_witness :
    fetchLoop [PageResponse.httpError 401] 2 [⟨"a", "A", "A", some 1, some 5, some 2000000⟩] =
        ([FetchMessage.unauthorized], none) ∧
    fetchLoop [PageResponse.httpError 429] 2 [⟨"a", "A", "A", some 1, some 5, some 2000000⟩] =
        ([FetchMessage.rateLimited 2], some [⟨"a", "A", "A", some 1, some 5, some 2000000⟩]) ∧
    fetchLoop [PageResponse.httpError 500] 2 [⟨"a", "A", "A", some 1, some 5, some 2000000⟩] =
        ([FetchMessage.httpOther 500 2], some [⟨"a", "A", "A", some 1, some 5, some 2000000⟩]) ∧
    fetchLoop [PageResponse.connectionFailure] 2 [⟨"a", "A", "A", some 1, some 5, some 2000000⟩] =
        ([FetchMessage.connectionFailed 2], some [⟨"a", "A", "A", some 1, some 5, some 2000000⟩]) ∧
    fetchLoop [PageResponse.unexpectedFailure] 2 [⟨"a", "A", "A", some 1, some 5, some 2000000⟩] =
        ([FetchMessage.unexpectedFailed 2], some [⟨"a", "A", "A", some 1, some 5, some 2000000⟩]) :=
  ⟨(fetch_failure_policy [] 2 [⟨"a", "A", "A", some 1, some 5, some 2000000⟩] 500).1,
   (fetch_failure_policy [] 2 [⟨"a", "A", "A", some 1, some 5, some 2000000⟩] 500).2.1
     (by decide),
   (fetch_failure_policy [] 2 [⟨"a", "A", "A", some 1, some 5, some 2000000⟩] 500).2.2.1
     (by decide) (by decide) (by decide),
   (fetch_failure_policy [] 2 [⟨"a", "A", "A", some 1, some 5, some 2000000⟩] 500).2.2.2.1
     (by decide),
   (fetch_failure_policy [] 2 [⟨"a", "A", "A", some 1, some 5, some 2000000⟩] 500).2.2.2.2
     (by decide)⟩

theorem natDigitsAux_len (fuel : Nat) :
    ∀ (n d : Nat), n ≤ fuel → n < 10 ^ d → (natDigitsAux fuel n).length ≤ d := by
  induction fuel with
  | zero =>
    intro n d _ _
    simp [natDigitsAux]
  | succ f ih =>
    intro n d h1 h2
    rw [natDigitsAux]
    by_cases hn : n = 0
    · simp [hn]
    · rw [if_neg hn]
      cases d with
      | zero =>
        rw [Nat.pow_zero, Nat.lt_one_iff] at h2
        exact absurd h2 hn
      | succ d0 =>
        simp only [List.length_cons]
        have hdiv_le : n / 10 ≤ f := by
          have := Nat.div_lt_self (Nat.pos_of_ne_zero hn) (by decide : 1 < 10)
          omega
        have hdiv_lt : n / 10 < 10 ^ d0 := by
          rw [Nat.div_lt_iff_lt_mul (by decide : 0 < 10)]
          calc n < 10 ^ (d0 + 1) := h2
            _ = 10 ^ d0 * 10 := by rw [Nat.pow_succ]
        exact Nat.succ_le_succ (ih (n / 10) d0 hdiv_le hdiv_lt)

theorem natDigits_len (n d : Nat) (h : n < 10 ^ d) : (natDigits n).length ≤ d :=
  natDigitsAux_len n n d (Nat.le_refl n) h

theorem digitCh_ne_dot (k : Nat) : digitCh k ≠ '.' := by
  unfold digitCh
  split <;> decide

theorem fracChars_length (m d : Nat) (h : m < 10 ^ d) : (fracChars m d).length = d := by
  rw [fracChars, padZeros, List.length_append, List.length_replicate, List.length_map,
    List.length_reverse]
  have := natDigits_len m d h
  omega

theorem fracChars_no_dot (m d : Nat) : ∀ c ∈ fracChars m d, c ≠ '.' := by
  intro c hc
  rw [fracChars, padZeros] at hc
  rcases List.mem_append.mp hc with h | h
  · rw [List.eq_of_mem_replicate h]
    decide
  · obtain ⟨k, _, rfl⟩ := List.mem_map.mp h
    exact digitCh_ne_dot k

theorem takeWhile_append_stop (p : Char → Bool) (l r : List Char) (x : Char)
    (hl : ∀ c ∈ l, p c = true) (hx : p x = false) :
    (l ++ x :: r).takeWhile p = l := by
  induction l with
  | nil => simp [List.takeWhile_cons, hx]
  | cons a t ih =>
    rw [List.cons_append, List.takeWhile_cons, hl a (List.mem_cons_self a t), if_pos rfl]
    rw [ih (fun c hc => hl c (List.mem_cons_of_mem a hc))]

theorem decimals_core (s : String) (A F : List Char) (hs : s.data = A ++ '.' :: F)
    (hF : ∀ c ∈ F, c ≠ '.') : decimalsAfterPoint s = F.length := by
  rw [decimalsAfterPoint, hs, List.reverse_append, List.reverse_cons, List.append_assoc,
    List.singleton_append]
  rw [takeWhile_append_stop _ F.reverse _ '.'
    (fun c hc => decide_eq_true (hF c (List.mem_reverse.mp hc)))
    (by decide)]
  exact List.length_reverse F

theorem formatFixed_decimals (q : ℚ) (d : Nat) :
    decimalsAfterPoint ("$" ++ formatFixed q d) = d := by
  have hmod : roundScaledHalfEven (q.num.natAbs * 10 ^ d) q.den % 10 ^ d < 10 ^ d :=
    Nat.mod_lt _ (Nat.pos_pow_of_pos d (by decide))
  rw [decimals_core ("$" ++ formatFixed q d)
      ('$' :: ((if q.num < 0 then ['-'] else []) ++
        intChars (roundScaledHalfEven (q.num.natAbs * 10 ^ d) q.den / 10 ^ d)))
      (fracChars (roundScaledHalfEven (q.num.natAbs * 10 ^ d) q.den % 10 ^ d) d)
      ?_ (fracChars_no_dot _ _)]
  · exact fracChars_length _ _ hmod
  · rw [String.data_append]
    show '$' :: (formatFixed q d).data = _
    rw [formatFixed]
    simp [List.append_assoc]

/-- C5: the three guard branches of `check_binance_data` issue no ticker
request (first component `false`), mark price and volume as absent, and
carry pairwise distinct status strings: no pair set at all, an empty pair
set, and a non-empty pair set missing the composed base+USDT symbol. -/
theorem check_guard_statuses (sym : String) (ps : Finset String) (t : TickerResult) :
    check_binance_data sym none t =
      (false, ⟨"❌ Verif. Indisponível", "N/A", "N/A"⟩) ∧
    (ps = ∅ →
      check_binance_data sym (some ps) t =
        (false, ⟨"⚠️ Binance Indisponível", "N/A", "N/A"⟩)) ∧
    (ps ≠ ∅ → upperStr sym ++ "USDT" ∉ ps →
      check_binance_data sym (some ps) t =
        (false, ⟨"❌ Não na Binance (USDT)", "N/A", "N/A"⟩)) ∧
    ("❌ Verif. Indisponível" ≠ "⚠️ Binance Indisponível" ∧
      "❌ Verif. Indisponível" ≠ "❌ Não na Binance (USDT)" ∧
      "⚠️ Binance Indisponível" ≠ "❌ Não na Binance (USDT)") := by
  refine ⟨rfl, ?_, ?_, by decide⟩
  · intro h
    simp [check_binance_data, h]
  · intro h hn
    simp [check_binance_data, h, hn]

/-- Scenario 3 of the spec through `check_guard_statuses`:
checkCoin of XYZ against the pair set containing only ABCUSDT reports the
not-listed status with both price and volume absent and no ticker request. -/
theorem check_guard_statuses_witness :
    check_binance_data ("XYZ") (some {"ABCUSDT"}) TickerResult.connectionFailure =
        (false, ⟨"❌ Não na Binance (USDT)", "N/A", "N/A"⟩) ∧
    check_binance_data ("XYZ") none TickerResult.connectionFailure =
        (false, ⟨"❌ Verif. Indisponível", "N/A", "N/A"⟩) ∧
    check_binance_data ("XYZ") (some (∅ : Finset String)) TickerResult.connectionFailure =
        (false, ⟨"⚠️ Binance Indisponível", "N/A", "N/A"⟩) :=
  ⟨(check_guard_statuses ("XYZ") {"ABCUSDT"} TickerResult.connectionFailure).2.2.1
      (by decide) (by decide),
   (check_guard_statuses ("XYZ") {"ABCUSDT"} TickerResult.connectionFailure).1,
   (check_guard_statuses ("XYZ") (∅ : Finset String) TickerResult.connectionFailure).2.1 rfl⟩

theorem check_listed_eq (sym : String) (ps : Finset String) (td : TickerData)
    (hps : ps ≠ ∅) (hmem : upperStr sym ++ "USDT" ∈ ps) :
    check_binance_data sym (some ps) (TickerResult.ok td) =
      (true,
        ⟨"✅ Na Binance",
          if td.lastPrice.getD 0 < mkRat 1 100 then ("$" ++ formatFixed (td.lastPrice.getD 0) 8)
          else ("$" ++ formatFixed (td.lastPrice.getD 0) 2),
          "$" ++ formatFixed (td.quoteVolume.getD 0) 2⟩) := by
  simp only [check_binance_data]
  rw [if_neg hps, if_neg (fun h => h hmem)]

/-- C6: for every successful ticker response, the `check_binance_data` price
rendering uses 8 decimal places when the (defaulted) price is strictly below
0.01 and 2 decimal places with comma thousands-grouping otherwise; in
particular 0.005 renders as $0.00500000 and 1234.5 renders as $1,234.50. -/
theorem price_formatting_rule (sym : String) (ps : Finset String) (td : TickerData)
    (hps : ps ≠ ∅) (hmem : upperStr sym ++ "USDT" ∈ ps) :
    (td.lastPrice.getD 0 < mkRat 1 100 →
      decimalsAfterPoint
        ((check_binance_data sym (some ps) (TickerResult.ok td)).2.price_binance) = 8) ∧
    (¬ td.lastPrice.getD 0 < mkRat 1 100 →
      (check_binance_data sym (some ps) (TickerResult.ok td)).2.price_binance =
          "$" ++ formatFixed (td.lastPrice.getD 0) 2 ∧
        decimalsAfterPoint
          ((check_binance_data sym (some ps) (TickerResult.ok td)).2.price_binance) = 2) ∧
    (td.lastPrice = some (mkRat 1 200) →
      (check_binance_data sym (some ps) (TickerResult.ok td)).2.price_binance =
        "$0.00500000") ∧
    (td.lastPrice = some (mkRat 2469 2) →
      (check_binance_data sym (some ps) (TickerResult.ok td)).2.price_binance =
        "$1,234.50") := by
  rw [check_listed_eq sym ps td hps hmem]
  refine ⟨?_, ?_, ?_, ?_⟩
  · intro h
    simp only [if_pos h]
    exact formatFixed_decimals (td.lastPrice.getD 0) 8
  · intro h
    rw [if_neg h]
    exact ⟨rfl, formatFixed_decimals (td.lastPrice.getD 0) 2⟩
  · intro h
    rw [h]
    simp only [Option.getD_some]
    rw [if_pos (by decide)]
    decide
  · intro h
    rw [h]
    simp only [Option.getD_some]
    rw [if_neg (by decide)]
    decide

/-- `price_formatting_rule` at the spec's two concrete prices. -/
theorem price_formatting_rule_witness :
    (check_binance_data ("ABC") (some {"ABCUSDT"})
        (TickerResult.ok ⟨some (mkRat 1 200), some 0⟩)).2.price_binance = "$0.00500000" ∧
    (check_binance_data ("ABC") (some {"ABCUSDT"})
        (TickerResult.ok ⟨some (mkRat 2469 2), some 0⟩)).2.price_binance = "$1,234.50" :=
  ⟨(price_formatting_rule ("ABC") {"ABCUSDT"} ⟨some (mkRat 1 200), some 0⟩
      (by decide) (by decide)).2.2.1 rfl,
   (price_formatting_rule ("ABC") {"ABCUSDT"} ⟨some (mkRat 2469 2), some 0⟩
      (by decide) (by decide)).2.2.2 rfl⟩

/-- C9: for a symbol present in a non-empty pair set, a successful ticker
response lacking `lastPrice` or `quoteVolume` still yields the listed
status, with the missing field defaulted to 0 and rendered as $0.00000000
(price) and $0.00 (volume). -/
theorem listed_missing_fields_default (sym : String) (ps : Finset String) (td : TickerData)
    (hps : ps ≠ ∅) (hmem : upperStr sym ++ "USDT" ∈ ps) :
    (check_binance_data sym (some ps) (TickerResult.ok td)).1 = true ∧
    (check_binance_data sym (some ps) (TickerResult.ok td)).2.status_binance =
      "✅ Na Binance" ∧
    (td.lastPrice = none →
      (check_binance_data sym (some ps) (TickerResult.ok td)).2.price_binance =
        "$0.00000000") ∧
    (td.quoteVolume = none →
      (check_binance_data sym (some ps) (TickerResult.ok td)).2.volume_binance = "$0.00") := by
  rw [check_listed_eq sym ps td hps hmem]
  refine ⟨rfl, rfl, ?_, ?_⟩
  · intro h
    rw [h]
    simp only [Option.getD_none]
    rw [if_pos (by decide)]
    decide
  · intro h
    rw [h]
    simp only [Option.getD_none]
    decide

/-- `listed_missing_fields_default` on a ticker body missing both fields. -/
theorem listed_missing_fields_default_witness :
    (check_binance_data ("ABC") (some {"ABCUSDT"}) (TickerResult.ok ⟨none, none⟩)).2.price_binance =
        "$0.00000000" ∧
    (check_binance_data ("ABC") (some {"ABCUSDT"}) (TickerResult.ok ⟨none, none⟩)).2.volume_binance =
        "$0.00" ∧
    (check_binance_data ("ABC") (some {"ABCUSDT"}) (TickerResult.ok ⟨none, none⟩)).2.status_binance =
        "✅ Na Binance" :=
  ⟨(listed_missing_fields_default ("ABC") {"ABCUSDT"} ⟨none, none⟩ (by decide) (by decide)).2.2.1
      rfl,
   (listed_missing_fields_default ("ABC") {"ABCUSDT"} ⟨none, none⟩ (by decide) (by decide)).2.2.2
      rfl,
   (listed_missing_fields_default ("ABC") {"ABCUSDT"} ⟨none, none⟩ (by decide) (by decide)).2.1⟩

/-- C7: `get_brave_search_news` prefers the news collection and falls back
to the web collection exactly when the news collection is empty; each item
takes its snippet from `description` falling back to `snippet`, and its
source from `source` falling back to the hostname; when both collections
are empty the outcome is the message shape, not the error shape. -/
theorem news_normalization (coin_name b_api_key : String) (count : Nat)
    (data : BraveResponse) (hname : coin_name ≠ "") (hkey : b_api_key ≠ "") :
    (data.news_results ≠ [] →
      get_brave_search_news coin_name b_api_key count (BraveOutcome.ok data) =
        NewsResult.news (data.news_results.map toNewsItem)) ∧
    (data.news_results = [] → data.web_results ≠ [] →
      get_brave_search_news coin_name b_api_key count (BraveOutcome.ok data) =
        NewsResult.news (data.web_results.map toNewsItem)) ∧
    (data.news_results = [] → data.web_results = [] →
      get_brave_search_news coin_name b_api_key count (BraveOutcome.ok data) =
        NewsResult.message ("Nenhuma notícia ou resultado web relevante encontrado para "
          ++ coin_name ++ " com os filtros atuais.") ∧
      isErrorResult
        (get_brave_search_news coin_name b_api_key count (BraveOutcome.ok data)) = false) ∧
    (∀ item ∈ data.news_results ++ data.web_results,
      (item.description.isSome = true →
        (toNewsItem item).snippet = item.description.getD ("N/A")) ∧
      (item.description = none → (toNewsItem item).snippet = item.snippet.getD ("N/A")) ∧
      (item.source.isSome = true → (toNewsItem item).source = item.source.getD ("N/A")) ∧
      (item.source = none →
        (toNewsItem item).source = item.meta_url_hostname.getD ("N/A"))) := by
  refine ⟨?_, ?_, ?_, ?_⟩
  · intro hn
    have h1 : (data.news_results.map toNewsItem).isEmpty = false := by
      cases hd : data.news_results with
      | nil => exact absurd hd hn
      | cons a t => rfl
    simp [get_brave_search_news, hkey, hname, h1]
  · intro hn hw
    have h2 : (data.web_results.map toNewsItem).isEmpty = false := by
      cases hd : data.web_results with
      | nil => exact absurd hd hw
      | cons a t => rfl
    simp [get_brave_search_news, hkey, hname, hn, h2]
  · intro hn hw
    constructor
    · simp [get_brave_search_news, hkey, hname, hn, hw]
    · simp [get_brave_search_news, hkey, hname, hn, hw, isErrorResult]
  · intro item _
    refine ⟨?_, ?_, ?_, ?_⟩
    · intro h
      cases hd : item.description with
      | none => rw [hd] at h; exact absurd h (by decide)
      | some s => simp [toNewsItem, hd]
    · intro h
      simp [toNewsItem, h]
    · intro h
      cases hs : item.source with
      | none => rw [hs] at h; exact absurd h (by decide)
      | some s => simp [toNewsItem, hs]
    · intro h
      simp [toNewsItem, h]

/-- Scenario 5 of the spec through `news_normalization`: a response with no
news collection and one web result yields that web result mapped into the
item shape. -/
theorem news_normalization_witness :
    get_brave_search_news ("Bitcoin") ("k") 3 (BraveOutcome.ok webOnlyResponse) =
        NewsResult.news (webOnlyResponse.web_results.map toNewsItem) ∧
    get_brave_search_news ("Bitcoin") ("k") 3 (BraveOutcome.ok webOnlyResponse) =
        NewsResult.news [⟨"T", "u", "d", "h"⟩] :=
  ⟨(news_normalization ("Bitcoin") ("k") 3 webOnlyResponse (by decide) (by decide)).2.1
      rfl (by decide),
   by decide⟩

/-- C8 (counterexample): with the default count 3, a response whose news
collection has four entries makes `get_brave_search_news` return four items:
the function never truncates to the requested count. -/
theorem news_count_counterexample :
    ¬ (newsItems (get_brave_search_news ("Bitcoin") ("k") 3
          (BraveOutcome.ok fourNewsResponse))).length ≤ 3 := by
  decide

/-- C8 (amended): the returned sequence has exactly one item per entry of
the collection the normalization chose; its length equals that collection's
length whatever the requested count, which is only sent as an API
parameter. -/
theorem news_length_eq_collection (coin_name b_api_key : String) (count : Nat)
    (data : BraveResponse) (hname : coin_name ≠ "") (hkey : b_api_key ≠ "") :
    (newsItems (get_brave_search_news coin_name b_api_key count (BraveOutcome.ok data))).length =
      (if data.news_results.isEmpty then data.web_results else data.news_results).length := by
  by_cases hn : data.news_results = []
  · by_cases hw : data.web_results = []
    · simp [get_brave_search_news, hkey, hname, hn, hw, newsItems]
    · have h2 : (data.web_results.map toNewsItem).isEmpty = false := by
        cases hd : data.web_results with
        | nil => exact absurd hd hw
        | cons a t => rfl
      simp [get_brave_search_news, hkey, hname, hn, h2, newsItems]
  · have h1 : (data.news_results.map toNewsItem).isEmpty = false := by
      cases hd : data.news_results with
      | nil => exact absurd hd hn
      | cons a t => rfl
    have h0 : data.news_results.isEmpty = false := by
      cases hd : data.news_results with
      | nil => exact absurd hd hn
      | cons a t => rfl
    simp [get_brave_search_news, hkey, hname, h1, h0, newsItems]

/-- `news_length_eq_collection` on the four-entry response: the output
length is that of the news collection (4), not the requested count (3). -/
theorem news_length_eq_collection_witness :
    (newsItems (get_brave_search_news ("Bitcoin") ("k") 3
        (BraveOutcome.ok fourNewsResponse))).length =
      (if fourNewsResponse.news_results.isEmpty then fourNewsResponse.web_results
        else fourNewsResponse.news_results).length ∧
    (if fourNewsResponse.news_results.isEmpty then fourNewsResponse.web_results
      else fourNewsResponse.news_results).length = 4 :=
  ⟨news_length_eq_collection ("Bitcoin") ("k") 3 fourNewsResponse (by decide) (by decide),
   by decide⟩

/-- C10 (counterexample): among eleven tied qualifying decliners, the last
one has no qualifying snapshot with a strictly higher change (the count is
0, fewer than 10), yet it is absent from the ranked output because the ten
tied snapshots before it fill the truncation. -/
theorem no_positivity_filter_counterexample :
    decliner ("k") ∈ tiedDecliners ∧
    (filtered_by_volume (valid_coins (unique_coins_data tiedDecliners))).countP
        (fun d => decide (chg24 (decliner ("k")) < chg24 d)) = 0 ∧
    decliner ("k") ∉ rankGainers tiedDecliners := by
  refine ⟨by decide, by decide, by decide⟩

/-- C10 (amended): the pipeline applies no positivity filter — a snapshot
that survives deduplication, has a defined negative 24h change and volume
above 1,000,000 appears in the ranked output whenever fewer than 10 other
qualifying snapshots have a greater-or-equal change; so the top-gainers
output can contain coins that declined. -/
theorem no_positivity_filter (l : List Coin) (c : Coin) (x v : ℚ)
    (hmem : c ∈ unique_coins_data l)
    (hchg : c.price_change_percentage_24h_in_currency = some x) (hneg : x < 0)
    (hvol : c.total_volume = some v) (hv : 1000000 < v)
    (hcount : (filtered_by_volume (valid_coins (unique_coins_data l))).countP
        (fun d => decide (d ≠ c ∧ chg24 c ≤ chg24 d)) < 10) :
    c ∈ rankGainers l := by
  have hcS : c ∈ filtered_by_volume (valid_coins (unique_coins_data l)) := by
    rw [filtered_by_volume, List.mem_filter]
    refine ⟨?_, ?_⟩
    · rw [valid_coins, List.mem_filter]
      exact ⟨hmem, by simp [hchg]⟩
    · simp [volumeOK, hvol, hv]
  have hnodupS : (filtered_by_volume (valid_coins (unique_coins_data l))).Nodup :=
    ((unique_coins_data_nodup l).filter _).filter _
  have hperm := sorted_coins_perm l
  have hsorted : List.Sorted gainerOrder (sorted_coins l) :=
    List.sorted_insertionSort gainerOrder _
  have hcsort : c ∈ sorted_coins l := hperm.mem_iff.mpr hcS
  obtain ⟨t1, t2, hsplit⟩ := List.append_of_mem hcsort
  have hnodup : (sorted_coins l).Nodup := hperm.nodup_iff.mpr hnodupS
  rw [hsplit] at hsorted hnodup
  have hpair : List.Pairwise gainerOrder (t1 ++ c :: t2) := hsorted
  rw [List.pairwise_append] at hpair
  have hbefore : ∀ d ∈ t1, gainerOrder d c :=
    fun d hd => hpair.2.2 d hd c (List.mem_cons_self c t2)
  rw [List.nodup_append] at hnodup
  have hne_t1 : ∀ d ∈ t1, d ≠ c := by
    intro d hd hdc
    exact hnodup.2.2 hd (hdc ▸ List.mem_cons_self c t2)
  have hlen : t1.length < 10 := by
    have h1 : t1.countP (fun d => decide (d ≠ c ∧ chg24 c ≤ chg24 d)) = t1.length := by
      rw [List.countP_eq_length]
      intro d hd
      simp only [decide_eq_true_eq]
      exact ⟨hne_t1 d hd, hbefore d hd⟩
    have h2 : t1.countP (fun d => decide (d ≠ c ∧ chg24 c ≤ chg24 d)) ≤
        (sorted_coins l).countP (fun d => decide (d ≠ c ∧ chg24 c ≤ chg24 d)) := by
      rw [hsplit]
      exact (List.sublist_append_left t1 (c :: t2)).countP_le _
    have h3 := hperm.countP_eq (fun d => decide (d ≠ c ∧ chg24 c ≤ chg24 d))
    omega
  rw [rankGainers, hsplit, List.take_append_eq_append_take,
    List.take_of_length_le (Nat.le_of_lt hlen)]
  have h10 : 10 - t1.length = (9 - t1.length) + 1 := by omega
  rw [h10, List.take_succ_cons]
  exact List.mem_append_right t1 (List.mem_cons_self c _)

/-- `no_positivity_filter` on a single qualifying decliner: the ranked
output contains the coin although its change is negative. -/
theorem no_positivity_filter_witness :
    decliner ("a") ∈ rankGainers [decliner ("a")] :=
  no_positivity_filter [decliner ("a")] (decliner ("a")) (-1) 2000000 (by decide) (by decide)
    (by decide) (by decide) (by decide) (by decide)

end CryptoScanner
